import Mathlib

/-!
# Verification of the go-httpstat timing core (`go18.go`)

Shallow embedding of the `httpstat` package's timing state machine.

Time is modelled as `Int` nanosecond instants, with `0` playing the role of
Go's zero `time.Time` (`t.IsZero()` becomes `t = 0`), and `time.Duration`
values as `Int` differences of instants (`a.Sub b` becomes `a - b`).

The `Result` struct is declared outside `go18.go` (in the package's other
file); its fields and their types are reconstructed here exactly from their
uses in `go18.go`: raw timestamps `dnsStart .. transferDone`, the flags
`isTLS` / `isReused`, the exported duration fields written by the trace
callbacks, and the unexported `contentTransfer` / `total` written by `Done`.
The `sync.RWMutex` field `m` is not part of the data model; where a claim is
about the lock itself, `Result.DoneLock` threads the mutex state explicitly.

Each hook closure installed by `withClientTrace` becomes a function
`Result → Int → Result` (the `Int` argument standing for the `time.Now()`
call inside the closure); `Result.Done` and the accessors
`Result.ContentTransfer` / `Result.Total` are methods of the same shape,
with the accessors returning the duration together with the (unchanged)
receiver to make their effect on the receiver explicit.
-/

namespace Httpstat

/-- The timing state of one request attempt, fields as used by `go18.go`. -/
structure Result where
  dnsStart : Int := 0
  dnsDone : Int := 0
  tcpStart : Int := 0
  tcpDone : Int := 0
  tlsStart : Int := 0
  tlsDone : Int := 0
  serverStart : Int := 0
  serverDone : Int := 0
  transferStart : Int := 0
  transferDone : Int := 0
  isTLS : Bool := false
  isReused : Bool := false
  DNSLookup : Int := 0
  NameLookup : Int := 0
  TCPConnection : Int := 0
  TLSHandshake : Int := 0
  ServerProcessing : Int := 0
  Connect : Int := 0
  Pretransfer : Int := 0
  StartTransfer : Int := 0
  contentTransfer : Int := 0
  total : Int := 0

/-- The zero value of the Go struct: every timestamp and duration zero,
both flags false. -/
def Result.initial : Result := {}

/-- `Result.Done` (go18.go:12-25), data part. Sets `transferDone`, then
returns early when `dnsStart` is the zero time ("result is empty"),
otherwise computes `contentTransfer` and `total`. -/
def Result.Done (r : Result) (t : Int) : Result :=
  let r := { r with transferDone := t }
  if r.dnsStart = 0 then
    r
  else
    { r with contentTransfer := r.transferDone - r.transferStart
           , total := r.transferDone - r.dnsStart }

/-- `Result.Done` (go18.go:12-25) with the mutex state threaded explicitly:
the boolean is the "exclusive lock held" state, `r.m.Lock()` sets it and
`r.m.Unlock()` clears it. The early return on the empty result exits before
the `Unlock` call at go18.go:24 is reached. -/
def Result.DoneLock (r : Result) (t : Int) : Result × Bool :=
  let locked := true
  let r := { r with transferDone := t }
  if r.dnsStart = 0 then
    (r, locked)
  else
    let r := { r with contentTransfer := r.transferDone - r.transferStart
                    , total := r.transferDone - r.dnsStart }
    (r, false)

/-- `Result.ContentTransfer` accessor (go18.go:30-35): `d = t.Sub(r.serverDone)`
under the read lock. Returns the duration together with the receiver, which
the method never assigns to. -/
def Result.ContentTransfer (r : Result) (t : Int) : Int × Result :=
  let d := t - r.serverDone
  (d, r)

/-- `Result.Total` accessor (go18.go:40-45): `d = t.Sub(r.dnsStart)` under the
read lock. Returns the duration together with the receiver, which the method
never assigns to. -/
def Result.Total (r : Result) (t : Int) : Int × Result :=
  let d := t - r.dnsStart
  (d, r)

/-- `DNSStart` hook (go18.go:49-53): `r.dnsStart = time.Now()`. -/
def Result.DNSStart (r : Result) (now : Int) : Result :=
  { r with dnsStart := now }

/-- `DNSDone` hook (go18.go:55-62). -/
def Result.DNSDone (r : Result) (now : Int) : Result :=
  let r := { r with dnsDone := now }
  { r with DNSLookup := r.dnsDone - r.dnsStart
         , NameLookup := r.dnsDone - r.dnsStart }

/-- `ConnectStart` hook (go18.go:64-74): record `tcpStart`; when there was no
DNS lookup (`r.dnsStart.IsZero()`), backfill `dnsStart` and `dnsDone` to it. -/
def Result.ConnectStart (r : Result) (now : Int) : Result :=
  let r := { r with tcpStart := now }
  if r.dnsStart = 0 then
    { r with dnsStart := r.tcpStart, dnsDone := r.tcpStart }
  else
    r

/-- `ConnectDone` hook (go18.go:76-83). -/
def Result.ConnectDone (r : Result) (now : Int) : Result :=
  let r := { r with tcpDone := now }
  { r with TCPConnection := r.tcpDone - r.tcpStart
         , Connect := r.tcpDone - r.dnsStart }

/-- `TLSHandshakeStart` hook (go18.go:85-90). -/
def Result.TLSHandshakeStart (r : Result) (now : Int) : Result :=
  { r with isTLS := true, tlsStart := now }

/-- `TLSHandshakeDone` hook (go18.go:92-99). -/
def Result.TLSHandshakeDone (r : Result) (now : Int) : Result :=
  let r := { r with tlsDone := now }
  { r with TLSHandshake := r.tlsDone - r.tlsStart
         , Pretransfer := r.tlsDone - r.dnsStart }

/-- `GotConn` hook (go18.go:101-109): when the connection is reused, set
`isReused`; otherwise do nothing. -/
def Result.GotConn (r : Result) (reused : Bool) : Result :=
  if reused then { r with isReused := true } else r

/-- `WroteRequest` hook (go18.go:111-144): record `serverStart`, then the three
backfill branches: (a) no DNS/TCP hooks fired at all, (b) reused connection,
(c) plaintext (`!r.isTLS`), where `TLSHandshake` is set to
`r.tcpDone.Sub(r.tcpDone)` and `Pretransfer` to `r.Connect`. -/
def Result.WroteRequest (r : Result) (now : Int) : Result :=
  let r := { r with serverStart := now }
  let r :=
    if r.dnsStart = 0 ∧ r.tcpStart = 0 then
      { r with dnsStart := r.serverStart, dnsDone := r.serverStart
             , tcpStart := r.serverStart, tcpDone := r.serverStart }
    else r
  let r :=
    if r.isReused then
      { r with dnsStart := r.serverStart, dnsDone := r.serverStart
             , tcpStart := r.serverStart, tcpDone := r.serverStart
             , tlsStart := r.serverStart, tlsDone := r.serverStart }
    else r
  if !r.isTLS then
    { r with TLSHandshake := r.tcpDone - r.tcpDone
           , Pretransfer := r.Connect }
  else r

/-- `GotFirstResponseByte` hook (go18.go:146-155). -/
def Result.GotFirstResponseByte (r : Result) (now : Int) : Result :=
  let r := { r with serverDone := now }
  let r := { r with ServerProcessing := r.serverDone - r.serverStart
                  , StartTransfer := r.serverDone - r.dnsStart }
  { r with transferStart := r.serverDone }

/-- One transport lifecycle event, carrying the instant at which its hook
fires (`GotConn` also carries `GotConnInfo.Reused`). -/
inductive Event where
  | dnsStart (t : Int)
  | dnsDone (t : Int)
  | connectStart (t : Int)
  | connectDone (t : Int)
  | tlsHandshakeStart (t : Int)
  | tlsHandshakeDone (t : Int)
  | gotConn (reused : Bool) (t : Int)
  | wroteRequest (t : Int)
  | gotFirstResponseByte (t : Int)

/-- The instant at which an event fires. -/
def Event.time : Event → Int
  | .dnsStart t => t
  | .dnsDone t => t
  | .connectStart t => t
  | .connectDone t => t
  | .tlsHandshakeStart t => t
  | .tlsHandshakeDone t => t
  | .gotConn _ t => t
  | .wroteRequest t => t
  | .gotFirstResponseByte t => t

/-- Dispatch one fired hook to its handler. -/
def Result.step (r : Result) : Event → Result
  | .dnsStart t => r.DNSStart t
  | .dnsDone t => r.DNSDone t
  | .connectStart t => r.ConnectStart t
  | .connectDone t => r.ConnectDone t
  | .tlsHandshakeStart t => r.TLSHandshakeStart t
  | .tlsHandshakeDone t => r.TLSHandshakeDone t
  | .gotConn reused _ => r.GotConn reused
  | .wroteRequest t => r.WroteRequest t
  | .gotFirstResponseByte t => r.GotFirstResponseByte t

/-- Fire a sequence of hooks in order. -/
def Result.run (r : Result) (es : List Event) : Result :=
  es.foldl Result.step r

/-- `chrono c es` holds when the event times of `es` are non-decreasing and
the first is at least `c`. -/
def chrono : Int → List Event → Bool
  | _, [] => true
  | c, e :: es => decide (c ≤ e.time) && chrono e.time es

/-- The time of the last event of `es`, or `c` when `es` is empty. -/
def endTime : Int → List Event → Int
  | c, [] => c
  | _, e :: es => endTime e.time es

/-- Every raw timestamp field of `r` lies between `0` and the clock bound `c`. -/
def Result.stampsLE (r : Result) (c : Int) : Prop :=
  (0 ≤ r.dnsStart ∧ r.dnsStart ≤ c) ∧ (0 ≤ r.dnsDone ∧ r.dnsDone ≤ c) ∧
  (0 ≤ r.tcpStart ∧ r.tcpStart ≤ c) ∧ (0 ≤ r.tcpDone ∧ r.tcpDone ≤ c) ∧
  (0 ≤ r.tlsStart ∧ r.tlsStart ≤ c) ∧ (0 ≤ r.tlsDone ∧ r.tlsDone ≤ c) ∧
  (0 ≤ r.serverStart ∧ r.serverStart ≤ c) ∧ (0 ≤ r.serverDone ∧ r.serverDone ≤ c) ∧
  (0 ≤ r.transferStart ∧ r.transferStart ≤ c) ∧ (0 ≤ r.transferDone ∧ r.transferDone ≤ c)

/-- Every derived duration field of `r` is non-negative. -/
def Result.nonneg (r : Result) : Prop :=
  0 ≤ r.DNSLookup ∧ 0 ≤ r.NameLookup ∧ 0 ≤ r.TCPConnection ∧ 0 ≤ r.TLSHandshake ∧
  0 ≤ r.ServerProcessing ∧ 0 ≤ r.Connect ∧ 0 ≤ r.Pretransfer ∧ 0 ≤ r.StartTransfer ∧
  0 ≤ r.contentTransfer ∧ 0 ≤ r.total

/-- The state invariant at clock `c`: `c` is non-negative, every timestamp
is between `0` and `c`, and every derived duration is non-negative. -/
def Result.inv (r : Result) (c : Int) : Prop :=
  0 ≤ c ∧ r.stampsLE c ∧ r.nonneg

/-- Realizability of one hook firing in a given state, following the spec's
lifecycle state machine: a done-hook follows its start-hook, connection-phase
hooks precede the request write and are not fired for a reused connection,
`GotConn` reports reuse before any connection-phase hook fired, and the first
byte follows the request write. -/
def Result.allowed (r : Result) : Event → Bool
  | .dnsStart _ => r.dnsStart == 0 && !r.isReused && r.serverStart == 0
  | .dnsDone _ => r.dnsStart != 0 && r.dnsDone == 0 && !r.isReused && r.serverStart == 0
  | .connectStart _ => r.tcpStart == 0 && !r.isReused && r.serverStart == 0
  | .connectDone _ => r.tcpStart != 0 && r.tcpDone == 0 && !r.isReused && r.serverStart == 0
  | .tlsHandshakeStart _ => r.tcpDone != 0 && r.tlsStart == 0 && !r.isReused && r.serverStart == 0
  | .tlsHandshakeDone _ => r.tlsStart != 0 && r.tlsDone == 0 && !r.isReused && r.serverStart == 0
  | .gotConn reused _ =>
      !reused || (r.dnsStart == 0 && r.tcpStart == 0 && r.tlsStart == 0 && r.serverStart == 0)
  | .wroteRequest _ => r.serverStart == 0
  | .gotFirstResponseByte _ => r.serverStart != 0 && r.serverDone == 0

/-- Every hook of the sequence is realizable in the state where it fires. -/
def Result.allowedRun (r : Result) : List Event → Bool
  | [] => true
  | e :: es => r.allowed e && (r.step e).allowedRun es

/-- Phase-order facts maintained by realizable runs: each done-timestamp
implies its start-timestamp, each phase implies its predecessor (via
backfill), `isTLS` and `tlsStart` agree before the request write, and before
the request write a reused connection has no connection-phase timestamps. -/
def Result.phaseOrder (r : Result) : Prop :=
  (r.dnsDone ≠ 0 → r.dnsStart ≠ 0) ∧
  (r.tcpStart ≠ 0 → r.dnsStart ≠ 0) ∧
  (r.tcpDone ≠ 0 → r.tcpStart ≠ 0) ∧
  (r.tlsStart ≠ 0 → r.tcpDone ≠ 0) ∧
  (r.tlsDone ≠ 0 → r.tlsStart ≠ 0) ∧
  (r.serverStart ≠ 0 → r.dnsStart ≠ 0) ∧
  (r.serverDone ≠ 0 → r.serverStart ≠ 0) ∧
  (r.serverStart = 0 → r.tlsStart ≠ 0 → r.isTLS = true) ∧
  (r.serverStart = 0 → r.isTLS = true → r.tlsStart ≠ 0) ∧
  (r.isReused = true ∧ r.serverStart = 0 →
    r.dnsStart = 0 ∧ r.dnsDone = 0 ∧ r.tcpStart = 0 ∧ r.tcpDone = 0 ∧
    r.tlsStart = 0 ∧ r.tlsDone = 0)

/-- Sentinel-freedom of the eight duration fields computed by the hooks: a
field whose governing done-timestamp is unset reads as zero, a computed field
equals the difference of its two stamps with the subtrahend set (never the
zero sentinel), and `Pretransfer` is zero, a difference of set stamps, or a
copy of `Connect`. -/
def Result.sentinelFree (r : Result) : Prop :=
  (r.dnsDone = 0 → r.DNSLookup = 0 ∧ r.NameLookup = 0) ∧
  (r.dnsDone ≠ 0 → r.DNSLookup = r.dnsDone - r.dnsStart ∧
    r.NameLookup = r.dnsDone - r.dnsStart ∧ r.dnsStart ≠ 0) ∧
  (r.tcpDone = 0 → r.TCPConnection = 0 ∧ r.Connect = 0) ∧
  (r.tcpDone ≠ 0 → r.TCPConnection = r.tcpDone - r.tcpStart ∧ r.tcpStart ≠ 0 ∧
    r.Connect = r.tcpDone - r.dnsStart ∧ r.dnsStart ≠ 0) ∧
  (r.tlsDone = 0 → r.TLSHandshake = 0) ∧
  (r.tlsDone ≠ 0 → r.TLSHandshake = r.tlsDone - r.tlsStart ∧ r.tlsStart ≠ 0) ∧
  (r.serverDone = 0 → r.ServerProcessing = 0) ∧
  (r.serverDone ≠ 0 → r.ServerProcessing = r.serverDone - r.serverStart ∧ r.serverStart ≠ 0) ∧
  (r.Pretransfer = 0 ∨
    (r.tlsDone ≠ 0 ∧ r.dnsStart ≠ 0 ∧ r.Pretransfer = r.tlsDone - r.dnsStart) ∨
    r.Pretransfer = r.Connect) ∧
  (r.serverDone = 0 → r.StartTransfer = 0) ∧
  (r.serverDone ≠ 0 → r.StartTransfer = r.serverDone - r.dnsStart ∧ r.dnsStart ≠ 0)

end Httpstat

namespace Httpstat

/-- The zero value satisfies the state invariant at clock 0. -/
theorem initial_inv : Result.initial.inv 0 := by
  simp [Result.inv, Result.stampsLE, Result.nonneg, Result.initial]

/-- Firing any single hook at an instant at least the current clock preserves
the state invariant. -/
theorem Result.inv_step (r : Result) (c : Int) (e : Event) (h : r.inv c)
    (ht : c ≤ e.time) : (r.step e).inv e.time := by
  obtain ⟨hc, hs, hn⟩ := h
  unfold Result.stampsLE at hs
  unfold Result.nonneg at hn
  cases e <;>
    simp only [Result.step, Result.DNSStart, Result.DNSDone, Result.ConnectStart,
      Result.ConnectDone, Result.TLSHandshakeStart, Result.TLSHandshakeDone,
      Result.GotConn, Result.WroteRequest, Result.GotFirstResponseByte, Event.time] at ht ⊢ <;>
    unfold Result.inv Result.stampsLE Result.nonneg <;>
    (try dsimp only) <;>
    (try split_ifs) <;>
    (try dsimp only) <;>
    omega

/-- Firing a chronological sequence of hooks preserves the state invariant. -/
theorem Result.inv_run (r : Result) (c : Int) (es : List Event) (h : r.inv c)
    (hc : chrono c es = true) : (r.run es).inv (endTime c es) := by
  induction es generalizing r c with
  | nil => exact h
  | cons e es ih =>
    simp only [chrono, Bool.and_eq_true, decide_eq_true_eq] at hc
    exact ih (r.step e) e.time (r.inv_step c e h hc.1) hc.2

/-- A prefix of a chronological event sequence is chronological. -/
theorem chrono_take (c : Int) (es : List Event) (n : Nat) (h : chrono c es = true) :
    chrono c (es.take n) = true := by
  induction es generalizing c n with
  | nil => simp [List.take_nil, chrono]
  | cons e es ih =>
    cases n with
    | zero => rfl
    | succ n =>
      simp only [List.take_succ_cons, chrono, Bool.and_eq_true] at h ⊢
      exact ⟨h.1, ih e.time n h.2⟩

/-- `Done` at an instant at least the current clock keeps every derived
duration non-negative. -/
theorem Result.nonneg_done (r : Result) (c t : Int) (h : r.inv c) (ht : c ≤ t) :
    (r.Done t).nonneg := by
  obtain ⟨hc, hs, hn⟩ := h
  unfold Result.stampsLE at hs
  unfold Result.nonneg at hn
  unfold Result.Done Result.nonneg
  (try dsimp only)
  (try split_ifs) <;> (try dsimp only) <;> omega

/-- C1: in the concrete end-to-end scenario — DNS start at `b`, DNS done at
`b+10`, connect start at `b+10`, connect done at `b+30`, request written at
`b+30` with `isTLS` never set, first byte at `b+50`, `Done` at `b+70`, for any
base instant `b` other than the zero sentinel — the recorded durations are
exactly `DNSLookup = 10`, `TCPConnection = 20`, `Connect = 30`,
`TLSHandshake = 0`, `Pretransfer = 30`, `ServerProcessing = 20`,
`StartTransfer = 50`, `contentTransfer = 20` and `total = 70`. -/
theorem claim1_end_to_end (b : Int) (hb : b ≠ 0) (r : Result)
    (hr : r = (Result.initial.run [Event.dnsStart b, Event.dnsDone (b + 10),
      Event.connectStart (b + 10), Event.connectDone (b + 30), Event.wroteRequest (b + 30),
      Event.gotFirstResponseByte (b + 50)]).Done (b + 70)) :
    r.DNSLookup = 10 ∧ r.TCPConnection = 20 ∧ r.Connect = 30 ∧ r.TLSHandshake = 0 ∧
    r.Pretransfer = 30 ∧ r.ServerProcessing = 20 ∧ r.StartTransfer = 50 ∧
    r.contentTransfer = 20 ∧ r.total = 70 := by
  subst hr
  simp only [Result.run, List.foldl, Result.step, Result.DNSStart, Result.DNSDone,
    Result.ConnectStart, Result.ConnectDone, Result.WroteRequest,
    Result.GotFirstResponseByte, Result.Done, Result.initial, hb]
  norm_num [hb]

/-- C1 witness: the end-to-end scenario at base instant 100. -/
theorem claim1_witness :
    ((Result.initial.run [Event.dnsStart 100, Event.dnsDone 110, Event.connectStart 110,
        Event.connectDone 130, Event.wroteRequest 130,
        Event.gotFirstResponseByte 150]).Done 170).DNSLookup = 10 ∧
    ((Result.initial.run [Event.dnsStart 100, Event.dnsDone 110, Event.connectStart 110,
        Event.connectDone 130, Event.wroteRequest 130,
        Event.gotFirstResponseByte 150]).Done 170).TCPConnection = 20 ∧
    ((Result.initial.run [Event.dnsStart 100, Event.dnsDone 110, Event.connectStart 110,
        Event.connectDone 130, Event.wroteRequest 130,
        Event.gotFirstResponseByte 150]).Done 170).Connect = 30 ∧
    ((Result.initial.run [Event.dnsStart 100, Event.dnsDone 110, Event.connectStart 110,
        Event.connectDone 130, Event.wroteRequest 130,
        Event.gotFirstResponseByte 150]).Done 170).TLSHandshake = 0 ∧
    ((Result.initial.run [Event.dnsStart 100, Event.dnsDone 110, Event.connectStart 110,
        Event.connectDone 130, Event.wroteRequest 130,
        Event.gotFirstResponseByte 150]).Done 170).Pretransfer = 30 ∧
    ((Result.initial.run [Event.dnsStart 100, Event.dnsDone 110, Event.connectStart 110,
        Event.connectDone 130, Event.wroteRequest 130,
        Event.gotFirstResponseByte 150]).Done 170).ServerProcessing = 20 ∧
    ((Result.initial.run [Event.dnsStart 100, Event.dnsDone 110, Event.connectStart 110,
        Event.connectDone 130, Event.wroteRequest 130,
        Event.gotFirstResponseByte 150]).Done 170).StartTransfer = 50 ∧
    ((Result.initial.run [Event.dnsStart 100, Event.dnsDone 110, Event.connectStart 110,
        Event.connectDone 130, Event.wroteRequest 130,
        Event.gotFirstResponseByte 150]).Done 170).contentTransfer = 20 ∧
    ((Result.initial.run [Event.dnsStart 100, Event.dnsDone 110, Event.connectStart 110,
        Event.connectDone 130, Event.wroteRequest 130,
        Event.gotFirstResponseByte 150]).Done 170).total = 70 :=
  claim1_end_to_end 100 (by decide) _ rfl

/-- C2 counterexample: on the fresh state, `serverDone` is still the zero
sentinel, yet the `ContentTransfer` accessor at `t = 5` computes
`5 - serverDone = 5`, a value that is not zero even though it depends on an
unset timestamp — it is computed by subtracting the sentinel. -/
theorem claim2_counterexample :
    Result.initial.serverDone = 0 ∧
    (Result.initial.ContentTransfer 5).1 = 5 - Result.initial.serverDone ∧
    (Result.initial.ContentTransfer 5).1 ≠ 0 := by
  refine ⟨rfl, rfl, by decide⟩

theorem sfree_dnsStart (r : Result) (t : Int) (h1 : r.phaseOrder) (h2 : r.sentinelFree)
    (ha : r.allowed (Event.dnsStart t) = true) (hpos : 1 ≤ t) :
    (r.DNSStart t).phaseOrder ∧ (r.DNSStart t).sentinelFree := by
  obtain ⟨po1, po2, po3, po4, po5, po6, po7, po9, po11, po10⟩ := h1
  obtain ⟨dl1, dl2, tc1, tc2, th1, th2, sp1, sp2, pt, st1, st2⟩ := h2
  simp only [Result.allowed, Bool.and_eq_true, Bool.not_eq_true', beq_iff_eq,
    bne_iff_ne] at ha
  obtain ⟨⟨ha1, haR⟩, haS⟩ := ha
  have ht : t ≠ 0 := by intro h0; rw [h0] at hpos; exact absurd hpos (by decide)
  have hdd : r.dnsDone = 0 := by by_contra hc; exact po1 hc ha1
  have htcD : r.tcpDone = 0 := by by_contra hc; exact po2 (po3 hc) ha1
  have htlD : r.tlsDone = 0 := by by_contra hc; exact po2 (po3 (po4 (po5 hc))) ha1
  have hsd : r.serverDone = 0 := by by_contra hc; exact po7 hc haS
  obtain ⟨hTC, hCn⟩ := tc1 htcD
  have hPT : r.Pretransfer = 0 := by
    rcases pt with h | h | h
    · exact h
    · exact absurd htlD h.1
    · exact h.trans hCn
  unfold Result.DNSStart Result.phaseOrder Result.sentinelFree
  dsimp only
  exact ⟨⟨fun _ => ht, fun _ => ht, po3, po4, po5, fun _ => ht, po7, po9, po11,
      fun h => absurd (haR ▸ h.1) (by decide)⟩,
    dl1, fun h => absurd hdd h, tc1, fun h => absurd htcD h, th1, th2, sp1, sp2,
    Or.inl hPT, st1, fun h => absurd hsd h⟩

theorem sfree_dnsDone (r : Result) (t : Int) (h1 : r.phaseOrder) (h2 : r.sentinelFree)
    (ha : r.allowed (Event.dnsDone t) = true) (hpos : 1 ≤ t) :
    (r.DNSDone t).phaseOrder ∧ (r.DNSDone t).sentinelFree := by
  obtain ⟨po1, po2, po3, po4, po5, po6, po7, po9, po11, po10⟩ := h1
  obtain ⟨dl1, dl2, tc1, tc2, th1, th2, sp1, sp2, pt, st1, st2⟩ := h2
  simp only [Result.allowed, Bool.and_eq_true, Bool.not_eq_true', beq_iff_eq,
    bne_iff_ne] at ha
  obtain ⟨⟨⟨ha1, ha2⟩, haR⟩, haS⟩ := ha
  have ht : t ≠ 0 := by intro h0; rw [h0] at hpos; exact absurd hpos (by decide)
  unfold Result.DNSDone Result.phaseOrder Result.sentinelFree
  dsimp only
  exact ⟨⟨fun _ => ha1, po2, po3, po4, po5, po6, po7, po9, po11,
      fun h => absurd (haR ▸ h.1) (by decide)⟩,
    fun h0 => absurd h0 ht, fun _ => ⟨rfl, rfl, ha1⟩, tc1, tc2, th1, th2, sp1, sp2, pt,
    st1, st2⟩

theorem sfree_connectStart (r : Result) (t : Int) (h1 : r.phaseOrder) (h2 : r.sentinelFree)
    (ha : r.allowed (Event.connectStart t) = true) (hpos : 1 ≤ t) :
    (r.ConnectStart t).phaseOrder ∧ (r.ConnectStart t).sentinelFree := by
  obtain ⟨po1, po2, po3, po4, po5, po6, po7, po9, po11, po10⟩ := h1
  obtain ⟨dl1, dl2, tc1, tc2, th1, th2, sp1, sp2, pt, st1, st2⟩ := h2
  simp only [Result.allowed, Bool.and_eq_true, Bool.not_eq_true', beq_iff_eq,
    bne_iff_ne] at ha
  obtain ⟨⟨ha1, haR⟩, haS⟩ := ha
  have ht : t ≠ 0 := by intro h0; rw [h0] at hpos; exact absurd hpos (by decide)
  have htcD : r.tcpDone = 0 := by by_contra hc; exact po3 hc ha1
  have htlD : r.tlsDone = 0 := by by_contra hc; exact po4 (po5 hc) htcD
  have hsd : r.serverDone = 0 := by by_contra hc; exact po7 hc haS
  obtain ⟨hTC, hCn⟩ := tc1 htcD
  have hPT : r.Pretransfer = 0 := by
    rcases pt with h | h | h
    · exact h
    · exact absurd htlD h.1
    · exact h.trans hCn
  unfold Result.ConnectStart Result.phaseOrder Result.sentinelFree
  dsimp only
  split_ifs with hb
  · have hdd : r.dnsDone = 0 := by by_contra hc; exact po1 hc hb
    obtain ⟨hDL, hNL⟩ := dl1 hdd
    exact ⟨⟨fun _ => ht, fun _ => ht, fun _ => ht, po4, po5, fun _ => ht, po7, po9, po11,
        fun h => absurd (haR ▸ h.1) (by decide)⟩,
      fun h0 => absurd h0 ht,
      fun _ => ⟨hDL.trans (sub_self t).symm, hNL.trans (sub_self t).symm, ht⟩,
      tc1, fun h => absurd htcD h, th1, th2, sp1, sp2, Or.inl hPT, st1,
      fun h => absurd hsd h⟩
  · exact ⟨⟨po1, fun _ => hb, fun _ => ht, po4, po5, po6, po7, po9, po11,
        fun h => absurd (haR ▸ h.1) (by decide)⟩,
      dl1, dl2, tc1, fun h => absurd htcD h, th1, th2, sp1, sp2, pt, st1, st2⟩

theorem sfree_connectDone (r : Result) (t : Int) (h1 : r.phaseOrder) (h2 : r.sentinelFree)
    (ha : r.allowed (Event.connectDone t) = true) (hpos : 1 ≤ t) :
    (r.ConnectDone t).phaseOrder ∧ (r.ConnectDone t).sentinelFree := by
  obtain ⟨po1, po2, po3, po4, po5, po6, po7, po9, po11, po10⟩ := h1
  obtain ⟨dl1, dl2, tc1, tc2, th1, th2, sp1, sp2, pt, st1, st2⟩ := h2
  simp only [Result.allowed, Bool.and_eq_true, Bool.not_eq_true', beq_iff_eq,
    bne_iff_ne] at ha
  obtain ⟨⟨⟨ha1, ha2⟩, haR⟩, haS⟩ := ha
  have ht : t ≠ 0 := by intro h0; rw [h0] at hpos; exact absurd hpos (by decide)
  have hds : r.dnsStart ≠ 0 := po2 ha1
  have htlS : r.tlsStart = 0 := by by_contra hc; exact po4 hc ha2
  have htlD : r.tlsDone = 0 := by by_contra hc; exact po4 (po5 hc) ha2
  have hsd : r.serverDone = 0 := by by_contra hc; exact po7 hc haS
  obtain ⟨hTC, hCn⟩ := tc1 ha2
  have hPT : r.Pretransfer = 0 := by
    rcases pt with h | h | h
    · exact h
    · exact absurd htlD h.1
    · exact h.trans hCn
  unfold Result.ConnectDone Result.phaseOrder Result.sentinelFree
  dsimp only
  exact ⟨⟨po1, po2, fun _ => ha1, fun h => absurd htlS h, po5, po6, po7, po9, po11,
      fun h => absurd (haR ▸ h.1) (by decide)⟩,
    dl1, dl2, fun h0 => absurd h0 ht, fun _ => ⟨rfl, ha1, rfl, hds⟩,
    th1, th2, sp1, sp2, Or.inl hPT, st1, st2⟩

theorem sfree_tlsStart (r : Result) (t : Int) (h1 : r.phaseOrder) (h2 : r.sentinelFree)
    (ha : r.allowed (Event.tlsHandshakeStart t) = true) (hpos : 1 ≤ t) :
    (r.TLSHandshakeStart t).phaseOrder ∧ (r.TLSHandshakeStart t).sentinelFree := by
  obtain ⟨po1, po2, po3, po4, po5, po6, po7, po9, po11, po10⟩ := h1
  obtain ⟨dl1, dl2, tc1, tc2, th1, th2, sp1, sp2, pt, st1, st2⟩ := h2
  simp only [Result.allowed, Bool.and_eq_true, Bool.not_eq_true', beq_iff_eq,
    bne_iff_ne] at ha
  obtain ⟨⟨⟨ha1, ha2⟩, haR⟩, haS⟩ := ha
  have ht : t ≠ 0 := by intro h0; rw [h0] at hpos; exact absurd hpos (by decide)
  have htlD : r.tlsDone = 0 := by by_contra hc; exact po5 hc ha2
  unfold Result.TLSHandshakeStart Result.phaseOrder Result.sentinelFree
  dsimp only
  exact ⟨⟨po1, po2, po3, fun _ => ha1, fun h => absurd htlD h, po6, po7,
      fun _ _ => rfl, fun _ _ => ht,
      fun h => absurd (haR ▸ h.1) (by decide)⟩,
    dl1, dl2, tc1, tc2, th1, fun h => absurd htlD h, sp1, sp2, pt, st1, st2⟩

theorem sfree_tlsDone (r : Result) (t : Int) (h1 : r.phaseOrder) (h2 : r.sentinelFree)
    (ha : r.allowed (Event.tlsHandshakeDone t) = true) (hpos : 1 ≤ t) :
    (r.TLSHandshakeDone t).phaseOrder ∧ (r.TLSHandshakeDone t).sentinelFree := by
  obtain ⟨po1, po2, po3, po4, po5, po6, po7, po9, po11, po10⟩ := h1
  obtain ⟨dl1, dl2, tc1, tc2, th1, th2, sp1, sp2, pt, st1, st2⟩ := h2
  simp only [Result.allowed, Bool.and_eq_true, Bool.not_eq_true', beq_iff_eq,
    bne_iff_ne] at ha
  obtain ⟨⟨⟨ha1, ha2⟩, haR⟩, haS⟩ := ha
  have ht : t ≠ 0 := by intro h0; rw [h0] at hpos; exact absurd hpos (by decide)
  have hds : r.dnsStart ≠ 0 := po2 (po3 (po4 ha1))
  unfold Result.TLSHandshakeDone Result.phaseOrder Result.sentinelFree
  dsimp only
  exact ⟨⟨po1, po2, po3, po4, fun _ => ha1, po6, po7, po9, po11,
      fun h => absurd (haR ▸ h.1) (by decide)⟩,
    dl1, dl2, tc1, tc2, fun h0 => absurd h0 ht, fun _ => ⟨rfl, ha1⟩,
    sp1, sp2, Or.inr (Or.inl ⟨ht, hds, rfl⟩), st1, st2⟩

theorem sfree_gotConn (r : Result) (reused : Bool) (t : Int) (h1 : r.phaseOrder)
    (h2 : r.sentinelFree) (ha : r.allowed (Event.gotConn reused t) = true) :
    (r.GotConn reused).phaseOrder ∧ (r.GotConn reused).sentinelFree := by
  cases reused with
  | false =>
    simp only [Result.GotConn, Bool.false_eq_true, if_false]
    exact ⟨h1, h2⟩
  | true =>
    obtain ⟨po1, po2, po3, po4, po5, po6, po7, po9, po11, po10⟩ := h1
    obtain ⟨dl1, dl2, tc1, tc2, th1, th2, sp1, sp2, pt, st1, st2⟩ := h2
    simp only [Result.allowed, Bool.not_true, Bool.false_or, Bool.and_eq_true,
      beq_iff_eq] at ha
    obtain ⟨⟨⟨hd, htc⟩, htl⟩, hss⟩ := ha
    have hdd : r.dnsDone = 0 := by by_contra hc; exact po1 hc hd
    have htcD : r.tcpDone = 0 := by by_contra hc; exact po3 hc htc
    have htlD : r.tlsDone = 0 := by by_contra hc; exact po5 hc htl
    simp only [Result.GotConn, if_true]
    unfold Result.phaseOrder Result.sentinelFree
    dsimp only
    exact ⟨⟨po1, po2, po3, po4, po5, po6, po7, po9, po11,
        fun _ => ⟨hd, hdd, htc, htcD, htl, htlD⟩⟩,
      dl1, dl2, tc1, tc2, th1, th2, sp1, sp2, pt, st1, st2⟩

theorem sfree_firstByte (r : Result) (t : Int) (h1 : r.phaseOrder) (h2 : r.sentinelFree)
    (ha : r.allowed (Event.gotFirstResponseByte t) = true) (hpos : 1 ≤ t) :
    (r.GotFirstResponseByte t).phaseOrder ∧ (r.GotFirstResponseByte t).sentinelFree := by
  obtain ⟨po1, po2, po3, po4, po5, po6, po7, po9, po11, po10⟩ := h1
  obtain ⟨dl1, dl2, tc1, tc2, th1, th2, sp1, sp2, pt, st1, st2⟩ := h2
  simp only [Result.allowed, Bool.and_eq_true, Bool.not_eq_true', beq_iff_eq,
    bne_iff_ne] at ha
  obtain ⟨ha1, ha2⟩ := ha
  have ht : t ≠ 0 := by intro h0; rw [h0] at hpos; exact absurd hpos (by decide)
  have hds : r.dnsStart ≠ 0 := po6 ha1
  unfold Result.GotFirstResponseByte Result.phaseOrder Result.sentinelFree
  dsimp only
  exact ⟨⟨po1, po2, po3, po4, po5, po6, fun _ => ha1, po9, po11, po10⟩,
    dl1, dl2, tc1, tc2, th1, th2,
    fun h0 => absurd h0 ht, fun _ => ⟨rfl, ha1⟩, pt,
    fun h0 => absurd h0 ht, fun _ => ⟨rfl, hds⟩⟩

theorem sfree_wroteRequest (r : Result) (t : Int) (h1 : r.phaseOrder) (h2 : r.sentinelFree)
    (ha : r.allowed (Event.wroteRequest t) = true) (hpos : 1 ≤ t) :
    (r.WroteRequest t).phaseOrder ∧ (r.WroteRequest t).sentinelFree := by
  obtain ⟨po1, po2, po3, po4, po5, po6, po7, po9, po11, po10⟩ := h1
  obtain ⟨dl1, dl2, tc1, tc2, th1, th2, sp1, sp2, pt, st1, st2⟩ := h2
  simp only [Result.allowed, beq_iff_eq] at ha
  have ht : t ≠ 0 := by intro h0; rw [h0] at hpos; exact absurd hpos (by decide)
  have hsd : r.serverDone = 0 := by by_contra hc; exact po7 hc ha
  unfold Result.WroteRequest Result.phaseOrder Result.sentinelFree
  dsimp only
  split_ifs
  all_goals rename_i hca hcb hcc
  all_goals (try dsimp only)
  all_goals (try dsimp only at hcb)
  all_goals (try dsimp only at hcc)
  -- branch (a)(b)(c)
  · obtain ⟨z1, z2, z3, z4, z5, z6⟩ := po10 ⟨hcb, ha⟩
    obtain ⟨hDL, hNL⟩ := dl1 z2
    obtain ⟨hTC, hCn⟩ := tc1 z4
    exact ⟨⟨fun _ => ht, fun _ => ht, fun _ => ht, fun _ => ht, fun _ => ht, fun _ => ht,
        fun h => absurd hsd h, fun h0 => absurd h0 ht, fun h0 => absurd h0 ht,
        fun h => absurd h.2 ht⟩,
      fun h0 => absurd h0 ht,
      fun _ => ⟨hDL.trans (sub_self t).symm, hNL.trans (sub_self t).symm, ht⟩,
      fun h0 => absurd h0 ht,
      fun _ => ⟨hTC.trans (sub_self t).symm, ht, hCn.trans (sub_self t).symm, ht⟩,
      fun h0 => absurd h0 ht, fun _ => ⟨rfl, ht⟩,
      fun _ => sp1 hsd, fun h => absurd hsd h,
      Or.inr (Or.inr rfl),
      fun _ => st1 hsd, fun h => absurd hsd h⟩
  -- branch (a)(b)(not c): impossible, reused implies no TLS start while isTLS says so
  · rw [Bool.not_eq_true'] at hcc
    have hT : r.isTLS = true := by
      cases hq : r.isTLS
      · exact absurd hq hcc
      · rfl
    obtain ⟨z1, z2, z3, z4, z5, z6⟩ := po10 ⟨hcb, ha⟩
    exact absurd z5 (po11 ha hT)
  -- branch (a)(not b)(c): legacy backfill
  · obtain ⟨hda, htca⟩ := hca
    have hdd : r.dnsDone = 0 := by by_contra hc; exact po1 hc hda
    have htcD : r.tcpDone = 0 := by by_contra hc; exact po3 hc htca
    have htlS : r.tlsStart = 0 := by by_contra hc; exact po4 hc htcD
    have htlD : r.tlsDone = 0 := by by_contra hc; exact po4 (po5 hc) htcD
    obtain ⟨hDL, hNL⟩ := dl1 hdd
    obtain ⟨hTC, hCn⟩ := tc1 htcD
    exact ⟨⟨fun _ => ht, fun _ => ht, fun _ => ht, fun h => absurd htlS h, po5,
        fun _ => ht, fun h => absurd hsd h, fun h0 => absurd h0 ht,
        fun h0 => absurd h0 ht, fun h => absurd h.2 ht⟩,
      fun h0 => absurd h0 ht,
      fun _ => ⟨hDL.trans (sub_self t).symm, hNL.trans (sub_self t).symm, ht⟩,
      fun h0 => absurd h0 ht,
      fun _ => ⟨hTC.trans (sub_self t).symm, ht, hCn.trans (sub_self t).symm, ht⟩,
      fun _ => sub_self t, fun h => absurd htlD h,
      fun _ => sp1 hsd, fun h => absurd hsd h,
      Or.inr (Or.inr rfl),
      fun _ => st1 hsd, fun h => absurd hsd h⟩
  -- branch (a)(not b)(not c): impossible, isTLS with no connect observed
  · rw [Bool.not_eq_true'] at hcc
    have hT : r.isTLS = true := by
      cases hq : r.isTLS
      · exact absurd hq hcc
      · rfl
    exact absurd hca.2 (po3 (po4 (po11 ha hT)))
  -- branch (not a)(b)(c): reused backfill
  · obtain ⟨z1, z2, z3, z4, z5, z6⟩ := po10 ⟨hcb, ha⟩
    obtain ⟨hDL, hNL⟩ := dl1 z2
    obtain ⟨hTC, hCn⟩ := tc1 z4
    exact ⟨⟨fun _ => ht, fun _ => ht, fun _ => ht, fun _ => ht, fun _ => ht, fun _ => ht,
        fun h => absurd hsd h, fun h0 => absurd h0 ht, fun h0 => absurd h0 ht,
        fun h => absurd h.2 ht⟩,
      fun h0 => absurd h0 ht,
      fun _ => ⟨hDL.trans (sub_self t).symm, hNL.trans (sub_self t).symm, ht⟩,
      fun h0 => absurd h0 ht,
      fun _ => ⟨hTC.trans (sub_self t).symm, ht, hCn.trans (sub_self t).symm, ht⟩,
      fun h0 => absurd h0 ht, fun _ => ⟨rfl, ht⟩,
      fun _ => sp1 hsd, fun h => absurd hsd h,
      Or.inr (Or.inr rfl),
      fun _ => st1 hsd, fun h => absurd hsd h⟩
  -- branch (not a)(b)(not c): impossible as (a)(b)(not c)
  · rw [Bool.not_eq_true'] at hcc
    have hT : r.isTLS = true := by
      cases hq : r.isTLS
      · exact absurd hq hcc
      · rfl
    obtain ⟨z1, z2, z3, z4, z5, z6⟩ := po10 ⟨hcb, ha⟩
    exact absurd z5 (po11 ha hT)
  -- branch (not a)(not b)(c): plaintext, no backfill
  · rw [Bool.not_eq_true'] at hcc
    have hds : r.dnsStart ≠ 0 := fun h0 => hca ⟨h0, by by_contra hc; exact po2 hc h0⟩
    have htlS : r.tlsStart = 0 := by
      by_contra hc
      rw [po9 ha hc] at hcc
      exact absurd hcc (by decide)
    have htlD : r.tlsDone = 0 := by by_contra hc; exact po5 hc htlS
    exact ⟨⟨po1, po2, po3, po4, po5, fun _ => hds, fun h => absurd hsd h,
        fun h0 => absurd h0 ht, fun h0 => absurd h0 ht, fun h => absurd h.2 ht⟩,
      dl1, dl2, tc1, tc2,
      fun _ => sub_self r.tcpDone, fun h => absurd htlD h,
      fun _ => sp1 hsd, fun h => absurd hsd h,
      Or.inr (Or.inr rfl),
      fun _ => st1 hsd, fun h => absurd hsd h⟩
  -- branch (not a)(not b)(not c): TLS, no backfill
  · have hds : r.dnsStart ≠ 0 := fun h0 => hca ⟨h0, by by_contra hc; exact po2 hc h0⟩
    exact ⟨⟨po1, po2, po3, po4, po5, fun _ => hds, fun h => absurd hsd h,
        fun h0 => absurd h0 ht, fun h0 => absurd h0 ht, fun h => absurd h.2 ht⟩,
      dl1, dl2, tc1, tc2, th1, th2,
      fun _ => sp1 hsd, fun h => absurd hsd h,
      pt,
      fun _ => st1 hsd, fun h => absurd hsd h⟩

/-- Every event hook, fired at a positive instant in a state where it is
realizable, preserves the phase-order and sentinel-freedom invariants. -/
theorem sfree_step (r : Result) (e : Event) (h1 : r.phaseOrder) (h2 : r.sentinelFree)
    (ha : r.allowed e = true) (hpos : 1 ≤ e.time) :
    (r.step e).phaseOrder ∧ (r.step e).sentinelFree := by
  cases e with
  | dnsStart t => exact sfree_dnsStart r t h1 h2 ha hpos
  | dnsDone t => exact sfree_dnsDone r t h1 h2 ha hpos
  | connectStart t => exact sfree_connectStart r t h1 h2 ha hpos
  | connectDone t => exact sfree_connectDone r t h1 h2 ha hpos
  | tlsHandshakeStart t => exact sfree_tlsStart r t h1 h2 ha hpos
  | tlsHandshakeDone t => exact sfree_tlsDone r t h1 h2 ha hpos
  | gotConn reused t => exact sfree_gotConn r reused t h1 h2 ha
  | wroteRequest t => exact sfree_wroteRequest r t h1 h2 ha hpos
  | gotFirstResponseByte t => exact sfree_firstByte r t h1 h2 ha hpos

theorem sfree_run (r : Result) (c : Int) (es : List Event) (h1 : r.phaseOrder)
    (h2 : r.sentinelFree) (hc1 : 1 ≤ c) (hch : chrono c es = true)
    (ha : r.allowedRun es = true) :
    (r.run es).phaseOrder ∧ (r.run es).sentinelFree := by
  induction es generalizing r c with
  | nil => exact ⟨h1, h2⟩
  | cons e es ih =>
    simp only [chrono, Bool.and_eq_true, decide_eq_true_eq] at hch
    simp only [Result.allowedRun, Bool.and_eq_true] at ha
    have hstep := sfree_step r e h1 h2 ha.1 (le_trans hc1 hch.1)
    exact ih (r.step e) e.time hstep.1 hstep.2 (le_trans hc1 hch.1) hch.2 ha.2

theorem initial_phaseOrder : Result.initial.phaseOrder := by
  simp [Result.phaseOrder, Result.initial]

theorem initial_sentinelFree : Result.initial.sentinelFree := by
  simp [Result.sentinelFree, Result.initial]

theorem allowedRun_take (r : Result) (es : List Event) (n : Nat)
    (h : r.allowedRun es = true) : r.allowedRun (es.take n) = true := by
  induction es generalizing r n with
  | nil => simp [List.take_nil, Result.allowedRun]
  | cons e es ih =>
    cases n with
    | zero => rfl
    | succ n =>
      simp only [List.take_succ_cons, Result.allowedRun, Bool.and_eq_true] at h ⊢
      exact ⟨h.1, ih (r.step e) n h.2⟩

theorem chrono_mono (c d : Int) (es : List Event) (h : d ≤ c) (hc : chrono c es = true) :
    chrono d es = true := by
  cases es with
  | nil => rfl
  | cons e es =>
    simp only [chrono, Bool.and_eq_true, decide_eq_true_eq] at hc ⊢
    exact ⟨le_trans h hc.1, hc.2⟩

theorem sentinelFree_done (r : Result) (t : Int) (h : r.sentinelFree) :
    (r.Done t).sentinelFree := by
  obtain ⟨dl1, dl2, tc1, tc2, th1, th2, sp1, sp2, pt, st1, st2⟩ := h
  unfold Result.Done Result.sentinelFree
  dsimp only
  split_ifs <;>
    exact ⟨dl1, dl2, tc1, tc2, th1, th2, sp1, sp2, pt, st1, st2⟩

/-- C2 (amended): along every realizable hook order with positive
non-decreasing instants, after every prefix the eight duration fields
computed by the hooks are non-negative and sentinel-free (a field whose
governing timestamp is unset reads zero; a computed field is a difference of
set timestamps, never of the zero sentinel), and `Done` preserves this and
leaves `contentTransfer` and `total` unchanged when `dnsStart` is unset; the
accessors, however, always compute `t - serverDone` and `t - dnsStart`, even
when those timestamps are unset. -/
theorem claim2_amended (es : List Event) (n : Nat) (t : Int) (r : Result)
    (hch : chrono 1 es = true) (hal : Result.initial.allowedRun es = true)
    (hr : r = Result.initial.run (es.take n)) :
    (r.nonneg ∧ r.sentinelFree ∧ (r.Done t).sentinelFree) ∧
    (r.dnsStart = 0 → (r.Done t).contentTransfer = r.contentTransfer ∧
      (r.Done t).total = r.total) ∧
    ((r.ContentTransfer t).1 = t - r.serverDone ∧ (r.Total t).1 = t - r.dnsStart) := by
  subst hr
  have hch0 : chrono 0 es = true := chrono_mono 1 0 es (by decide) hch
  have hinv := Result.inv_run Result.initial 0 (es.take n) initial_inv
    (chrono_take 0 es n hch0)
  have hsf := sfree_run Result.initial 1 (es.take n) initial_phaseOrder
    initial_sentinelFree (by decide) (chrono_take 1 es n hch) (allowedRun_take _ es n hal)
  refine ⟨⟨hinv.2.2, hsf.2, sentinelFree_done _ t hsf.2⟩, fun h => ?_, rfl, rfl⟩
  simp [Result.Done, h]

/-- C2 witness: the invariants along the full happy-path run at instants
2, 3, 3, 5, 6, 8, with the accessors read at 9. -/
theorem claim2_witness :
    ((Result.initial.run ([Event.dnsStart 2, Event.dnsDone 3, Event.connectStart 3,
        Event.connectDone 5, Event.wroteRequest 6, Event.gotFirstResponseByte 8].take 6)).nonneg ∧
      (Result.initial.run ([Event.dnsStart 2, Event.dnsDone 3, Event.connectStart 3,
        Event.connectDone 5, Event.wroteRequest 6,
        Event.gotFirstResponseByte 8].take 6)).sentinelFree ∧
      ((Result.initial.run ([Event.dnsStart 2, Event.dnsDone 3, Event.connectStart 3,
        Event.connectDone 5, Event.wroteRequest 6,
        Event.gotFirstResponseByte 8].take 6)).Done 9).sentinelFree) ∧
    (((Result.initial.run ([Event.dnsStart 2, Event.dnsDone 3, Event.connectStart 3,
        Event.connectDone 5, Event.wroteRequest 6,
        Event.gotFirstResponseByte 8].take 6)).ContentTransfer 9).1 =
      9 - (Result.initial.run ([Event.dnsStart 2, Event.dnsDone 3, Event.connectStart 3,
        Event.connectDone 5, Event.wroteRequest 6,
        Event.gotFirstResponseByte 8].take 6)).serverDone ∧
      ((Result.initial.run ([Event.dnsStart 2, Event.dnsDone 3, Event.connectStart 3,
        Event.connectDone 5, Event.wroteRequest 6,
        Event.gotFirstResponseByte 8].take 6)).Total 9).1 =
      9 - (Result.initial.run ([Event.dnsStart 2, Event.dnsDone 3, Event.connectStart 3,
        Event.connectDone 5, Event.wroteRequest 6,
        Event.gotFirstResponseByte 8].take 6)).dnsStart) :=
  ⟨(claim2_amended [Event.dnsStart 2, Event.dnsDone 3, Event.connectStart 3,
      Event.connectDone 5, Event.wroteRequest 6, Event.gotFirstResponseByte 8] 6 9 _
      (by decide) (by decide) rfl).1,
   (claim2_amended [Event.dnsStart 2, Event.dnsDone 3, Event.connectStart 3,
      Event.connectDone 5, Event.wroteRequest 6, Event.gotFirstResponseByte 8] 6 9 _
      (by decide) (by decide) rfl).2.2⟩

/-- C3: `Done` acquires the exclusive lock and, on the empty-result early
return (`dnsStart` unset), exits with the lock still held; the unlock call is
reached exactly on the non-empty path. -/
theorem claim3_lock (r : Result) (t : Int) :
    (r.dnsStart = 0 → (r.DoneLock t).2 = true) ∧
    (r.dnsStart ≠ 0 → (r.DoneLock t).2 = false) := by
  unfold Result.DoneLock
  constructor <;> intro h <;> simp [h]

/-- C3 witness: lock held after `Done` on the fresh state, released after
`Done` on a state whose `dnsStart` is set. -/
theorem claim3_witness :
    (Result.initial.DoneLock 7).2 = true ∧ ((Result.initial.DNSStart 3).DoneLock 7).2 = false :=
  ⟨(claim3_lock Result.initial 7).1 rfl,
   (claim3_lock (Result.initial.DNSStart 3) 7).2 (by decide)⟩

/-- C4: when `dnsStart` is unset, `Done t` changes only `transferDone`
(setting it to `t`); on the empty state `contentTransfer` and `total` stay
zero. Otherwise it sets `transferDone = t`,
`contentTransfer = transferDone - transferStart` and
`total = transferDone - dnsStart`. -/
theorem claim4_done (r : Result) (t : Int) :
    (r.dnsStart = 0 → r.Done t = { r with transferDone := t }) ∧
    ((Result.initial.Done t).contentTransfer = 0 ∧ (Result.initial.Done t).total = 0) ∧
    (r.dnsStart ≠ 0 → (r.Done t).transferDone = t ∧
      (r.Done t).contentTransfer = t - r.transferStart ∧
      (r.Done t).total = t - r.dnsStart) := by
  refine ⟨fun h => ?_, ⟨rfl, rfl⟩, fun h => ?_⟩
  · simp [Result.Done, h]
  · simp [Result.Done, h]

/-- C4 witness: `Done 9` on the fresh state and on a state with
`dnsStart = 2`. -/
theorem claim4_witness :
    (Result.initial.Done 9 = { Result.initial with transferDone := 9 }) ∧
    (((Result.initial.DNSStart 2).Done 9).transferDone = 9 ∧
      ((Result.initial.DNSStart 2).Done 9).contentTransfer =
        9 - (Result.initial.DNSStart 2).transferStart ∧
      ((Result.initial.DNSStart 2).Done 9).total = 9 - (Result.initial.DNSStart 2).dnsStart) :=
  ⟨(claim4_done Result.initial 9).1 rfl,
   (claim4_done (Result.initial.DNSStart 2) 9).2.2 (by decide)⟩

/-- C5: for every sequence of lifecycle events whose timestamps are
non-decreasing (which covers every realizable order and every skip
combination), every derived duration field is non-negative after every event
(every prefix of the run) and after `Done` at any instant at least the last
event time. -/
theorem claim5_nonneg (es : List Event) (t : Int) (hchrono : chrono 0 es = true)
    (ht : endTime 0 es ≤ t) :
    (∀ n : Nat, (Result.initial.run (es.take n)).nonneg) ∧
    ((Result.initial.run es).Done t).nonneg := by
  refine ⟨fun n => ?_, ?_⟩
  · exact (Result.inv_run Result.initial 0 (es.take n) initial_inv
      (chrono_take 0 es n hchrono)).2.2
  · exact Result.nonneg_done _ _ t (Result.inv_run Result.initial 0 es initial_inv hchrono) ht

/-- C5 witness: non-negativity for the run `[dnsStart 1, firstByte 2]`
followed by `Done 3`. -/
theorem claim5_witness :
    (Result.initial.run ([Event.dnsStart 1, Event.gotFirstResponseByte 2].take 2)).nonneg ∧
    ((Result.initial.run [Event.dnsStart 1, Event.gotFirstResponseByte 2]).Done 3).nonneg :=
  ⟨(claim5_nonneg [Event.dnsStart 1, Event.gotFirstResponseByte 2] 3 (by decide) (by decide)).1 2,
   (claim5_nonneg [Event.dnsStart 1, Event.gotFirstResponseByte 2] 3 (by decide) (by decide)).2⟩

end Httpstat

namespace Httpstat

/-- C6: the `WroteRequest` handler sets `serverStart` to the current instant
and applies exactly the three backfills: (a) when neither `dnsStart` nor
`tcpStart` is set it backfills the DNS and TCP timestamps to `serverStart`;
(b) when `isReused` it backfills the DNS, TCP and TLS timestamps to
`serverStart`; (c) when `isTLS` is not set it zeroes `TLSHandshake` and makes
`Pretransfer` equal `Connect`. In the reused-connection scenario `DNSLookup`,
`TCPConnection` and `TLSHandshake` are zero while `ServerProcessing` is
positive, and in the plaintext scenario `TLSHandshake` is zero and
`Pretransfer` equals `Connect` exactly. -/
theorem claim6_wrote (r : Result) (now t1 t2 t3 t4 : Int) :
    ((r.WroteRequest now).serverStart = now) ∧
    (r.dnsStart = 0 ∧ r.tcpStart = 0 →
      (r.WroteRequest now).dnsStart = now ∧ (r.WroteRequest now).dnsDone = now ∧
      (r.WroteRequest now).tcpStart = now ∧ (r.WroteRequest now).tcpDone = now) ∧
    (r.isReused = true →
      (r.WroteRequest now).dnsStart = now ∧ (r.WroteRequest now).dnsDone = now ∧
      (r.WroteRequest now).tcpStart = now ∧ (r.WroteRequest now).tcpDone = now ∧
      (r.WroteRequest now).tlsStart = now ∧ (r.WroteRequest now).tlsDone = now) ∧
    (r.isTLS = false →
      (r.WroteRequest now).TLSHandshake = 0 ∧
      (r.WroteRequest now).Pretransfer = (r.WroteRequest now).Connect) ∧
    (t2 < t3 →
      ((Result.initial.run [Event.gotConn true t1, Event.wroteRequest t2,
          Event.gotFirstResponseByte t3]).Done t4).DNSLookup = 0 ∧
      ((Result.initial.run [Event.gotConn true t1, Event.wroteRequest t2,
          Event.gotFirstResponseByte t3]).Done t4).TCPConnection = 0 ∧
      ((Result.initial.run [Event.gotConn true t1, Event.wroteRequest t2,
          Event.gotFirstResponseByte t3]).Done t4).TLSHandshake = 0 ∧
      0 < ((Result.initial.run [Event.gotConn true t1, Event.wroteRequest t2,
          Event.gotFirstResponseByte t3]).Done t4).ServerProcessing) ∧
    ((Result.initial.run [Event.connectStart t1, Event.connectDone t2,
        Event.wroteRequest t3]).TLSHandshake = 0 ∧
      (Result.initial.run [Event.connectStart t1, Event.connectDone t2,
        Event.wroteRequest t3]).Pretransfer =
      (Result.initial.run [Event.connectStart t1, Event.connectDone t2,
        Event.wroteRequest t3]).Connect) := by
  refine ⟨?_, fun h => ?_, fun h => ?_, fun h => ?_, fun h => ?_, ?_⟩
  · unfold Result.WroteRequest
    (try dsimp only)
    split_ifs <;> rfl
  · unfold Result.WroteRequest
    (try dsimp only)
    split_ifs <;> simp_all
  · unfold Result.WroteRequest
    (try dsimp only)
    split_ifs <;> simp_all
  · unfold Result.WroteRequest
    (try dsimp only)
    split_ifs <;> simp_all
  · simp only [Result.run, List.foldl, Result.step, Result.GotConn, Result.WroteRequest,
      Result.GotFirstResponseByte, Result.Done, Result.initial]
    split_ifs <;> simp_all
  · simp only [Result.run, List.foldl, Result.step, Result.ConnectStart, Result.ConnectDone,
      Result.WroteRequest, Result.initial]
    split_ifs <;> simp_all

/-- C6 witness: the handler on a reused fresh state at instant 5, the reused
scenario at instants 1, 2, 3, 4, and the plaintext scenario inside it. -/
theorem claim6_witness :
    (({ Result.initial with isReused := true } : Result).WroteRequest 5).serverStart = 5 ∧
    ((({ Result.initial with isReused := true } : Result).WroteRequest 5).dnsStart = 5 ∧
      (({ Result.initial with isReused := true } : Result).WroteRequest 5).dnsDone = 5 ∧
      (({ Result.initial with isReused := true } : Result).WroteRequest 5).tcpStart = 5 ∧
      (({ Result.initial with isReused := true } : Result).WroteRequest 5).tcpDone = 5 ∧
      (({ Result.initial with isReused := true } : Result).WroteRequest 5).tlsStart = 5 ∧
      (({ Result.initial with isReused := true } : Result).WroteRequest 5).tlsDone = 5) ∧
    ((({ Result.initial with isReused := true } : Result).WroteRequest 5).TLSHandshake = 0 ∧
      (({ Result.initial with isReused := true } : Result).WroteRequest 5).Pretransfer =
        (({ Result.initial with isReused := true } : Result).WroteRequest 5).Connect) ∧
    (((Result.initial.run [Event.gotConn true 1, Event.wroteRequest 2,
        Event.gotFirstResponseByte 3]).Done 4).DNSLookup = 0 ∧
      ((Result.initial.run [Event.gotConn true 1, Event.wroteRequest 2,
        Event.gotFirstResponseByte 3]).Done 4).TCPConnection = 0 ∧
      ((Result.initial.run [Event.gotConn true 1, Event.wroteRequest 2,
        Event.gotFirstResponseByte 3]).Done 4).TLSHandshake = 0 ∧
      0 < ((Result.initial.run [Event.gotConn true 1, Event.wroteRequest 2,
        Event.gotFirstResponseByte 3]).Done 4).ServerProcessing) :=
  ⟨(claim6_wrote { Result.initial with isReused := true } 5 1 2 3 4).1,
   (claim6_wrote { Result.initial with isReused := true } 5 1 2 3 4).2.2.1 rfl,
   (claim6_wrote { Result.initial with isReused := true } 5 1 2 3 4).2.2.2.1 rfl,
   (claim6_wrote { Result.initial with isReused := true } 5 1 2 3 4).2.2.2.2.1 (by decide)⟩

/-- C7: when `ConnectStart` fires while `dnsStart` is unset, it backfills
`dnsStart` and `dnsDone` to the new `tcpStart`; consequently, after
`ConnectDone` in that scenario (where `DNSLookup` was never computed),
`DNSLookup` is zero and `Connect` equals `TCPConnection` exactly. -/
theorem claim7_backfill (r : Result) (t1 t2 : Int) (h : r.dnsStart = 0) :
    ((r.ConnectStart t1).tcpStart = t1 ∧ (r.ConnectStart t1).dnsStart = t1 ∧
      (r.ConnectStart t1).dnsDone = t1) ∧
    (r.DNSLookup = 0 →
      ((r.ConnectStart t1).ConnectDone t2).DNSLookup = 0 ∧
      ((r.ConnectStart t1).ConnectDone t2).Connect =
        ((r.ConnectStart t1).ConnectDone t2).TCPConnection) := by
  refine ⟨?_, fun hd => ?_⟩
  · simp [Result.ConnectStart, h]
  · simp [Result.ConnectStart, Result.ConnectDone, h, hd]

/-- C7 witness: the no-DNS scenario with connect start at 50 and connect done
at 70, starting from the fresh state. -/
theorem claim7_witness :
    ((Result.initial.ConnectStart 50).tcpStart = 50 ∧
      (Result.initial.ConnectStart 50).dnsStart = 50 ∧
      (Result.initial.ConnectStart 50).dnsDone = 50) ∧
    (((Result.initial.ConnectStart 50).ConnectDone 70).DNSLookup = 0 ∧
      ((Result.initial.ConnectStart 50).ConnectDone 70).Connect =
        ((Result.initial.ConnectStart 50).ConnectDone 70).TCPConnection) :=
  ⟨(claim7_backfill Result.initial 50 70 rfl).1,
   (claim7_backfill Result.initial 50 70 rfl).2 rfl⟩

/-- C8: for every state and every `t`, the `ContentTransfer` accessor returns
exactly `t - serverDone` and the `Total` accessor exactly `t - dnsStart`,
neither changes any field of the receiver, and repeating a call with the same
`t` and no intervening write returns the identical value. -/
theorem claim8_accessors (r : Result) (t : Int) :
    (r.ContentTransfer t).1 = t - r.serverDone ∧ (r.Total t).1 = t - r.dnsStart ∧
    (r.ContentTransfer t).2 = r ∧ (r.Total t).2 = r ∧
    ((r.ContentTransfer t).2.ContentTransfer t).1 = (r.ContentTransfer t).1 ∧
    ((r.Total t).2.Total t).1 = (r.Total t).1 := by
  simp [Result.ContentTransfer, Result.Total]

/-- C9 counterexample: after `dnsStart` was set to 5, a second `DNSStart` at
instant 9 overwrites it to 9 — the existing value is not kept, so the handler
is last-write-wins, not first-write-wins. -/
theorem claim9_counterexample :
    (Result.initial.DNSStart 5).dnsStart ≠ 0 ∧
    ((Result.initial.DNSStart 5).DNSStart 9).dnsStart = 9 ∧ (9 : Int) ≠ 5 := by
  refine ⟨by decide, rfl, by decide⟩

/-- C9 (amended): the `DNSStart` handler unconditionally sets `dnsStart` to
the current instant, overwriting any existing value, and changes nothing
else. -/
theorem claim9_amended (r : Result) (now : Int) :
    r.DNSStart now = { r with dnsStart := now } := rfl

/-- C10 counterexample: after real DNS and connect observations
(`dnsStart = 1`, `tcpDone = 5`, `Connect = 4`), a reused `GotConn` and a
`WroteRequest` at instant 6 overwrite the six timestamps with 6, yet the
stored `Connect` and `Pretransfer` keep the earlier measurement 4 — they are
not re-measured from the request-write instant (which would give
`tcpDone - dnsStart = 0`). -/
theorem claim10_counterexample :
    ((Result.initial.run [Event.dnsStart 1, Event.dnsDone 2, Event.connectStart 2,
      Event.connectDone 5, Event.gotConn true 5, Event.wroteRequest 6]).dnsStart = 6 ∧
     (Result.initial.run [Event.dnsStart 1, Event.dnsDone 2, Event.connectStart 2,
      Event.connectDone 5, Event.gotConn true 5, Event.wroteRequest 6]).tcpDone = 6 ∧
     (Result.initial.run [Event.dnsStart 1, Event.dnsDone 2, Event.connectStart 2,
      Event.connectDone 5, Event.gotConn true 5, Event.wroteRequest 6]).serverStart = 6) ∧
    (Result.initial.run [Event.dnsStart 1, Event.dnsDone 2, Event.connectStart 2,
      Event.connectDone 5, Event.gotConn true 5, Event.wroteRequest 6]).Connect = 4 ∧
    (Result.initial.run [Event.dnsStart 1, Event.dnsDone 2, Event.connectStart 2,
      Event.connectDone 5, Event.gotConn true 5, Event.wroteRequest 6]).Pretransfer = 4 ∧
    (4 : Int) ≠ 6 - 6 := by
  refine ⟨⟨rfl, rfl, rfl⟩, rfl, rfl, by decide⟩

/-- C10 (amended): when `isReused` is set, `WroteRequest` unconditionally
overwrites the six connection-setup timestamps with `serverStart`, even over
previously recorded real timestamps; durations computed after that point from
`dnsStart` (`StartTransfer` at first byte, `total` at `Done`) are measured
from the request-write instant, but the already-stored `Connect` keeps its
earlier value, and with `isTLS` unset `Pretransfer` is reset to that earlier
`Connect`. -/
theorem claim10_amended (r : Result) (now u v : Int) (h : r.isReused = true) :
    ((r.WroteRequest now).dnsStart = now ∧ (r.WroteRequest now).dnsDone = now ∧
      (r.WroteRequest now).tcpStart = now ∧ (r.WroteRequest now).tcpDone = now ∧
      (r.WroteRequest now).tlsStart = now ∧ (r.WroteRequest now).tlsDone = now) ∧
    (r.WroteRequest now).Connect = r.Connect ∧
    (r.isTLS = false → (r.WroteRequest now).Pretransfer = r.Connect) ∧
    ((r.WroteRequest now).GotFirstResponseByte u).StartTransfer = u - now ∧
    (now ≠ 0 →
      (((r.WroteRequest now).GotFirstResponseByte u).Done v).total = v - now) := by
  refine ⟨?_, ?_, fun htls => ?_, ?_, fun hn => ?_⟩ <;>
    simp only [Result.WroteRequest, Result.GotFirstResponseByte, Result.Done] <;>
    (try split_ifs) <;> simp_all

/-- C10 witness: the amended claim on a reused state with `Connect = 4`,
request written at 6, first byte at 7, `Done` at 9. -/
theorem claim10_witness :
    ((({ Result.initial with isReused := true, Connect := 4 } : Result).WroteRequest 6).dnsStart = 6 ∧
      (({ Result.initial with isReused := true, Connect := 4 } : Result).WroteRequest 6).dnsDone = 6 ∧
      (({ Result.initial with isReused := true, Connect := 4 } : Result).WroteRequest 6).tcpStart = 6 ∧
      (({ Result.initial with isReused := true, Connect := 4 } : Result).WroteRequest 6).tcpDone = 6 ∧
      (({ Result.initial with isReused := true, Connect := 4 } : Result).WroteRequest 6).tlsStart = 6 ∧
      (({ Result.initial with isReused := true, Connect := 4 } : Result).WroteRequest 6).tlsDone = 6) ∧
    (({ Result.initial with isReused := true, Connect := 4 } : Result).WroteRequest 6).Connect =
      ({ Result.initial with isReused := true, Connect := 4 } : Result).Connect ∧
    ((({ Result.initial with isReused := true, Connect := 4 } : Result).WroteRequest 6).GotFirstResponseByte 7).StartTransfer = 7 - 6 ∧
    (((({ Result.initial with isReused := true, Connect := 4 } : Result).WroteRequest 6).GotFirstResponseByte 7).Done 9).total = 9 - 6 :=
  ⟨(claim10_amended { Result.initial with isReused := true, Connect := 4 } 6 7 9 rfl).1,
   (claim10_amended { Result.initial with isReused := true, Connect := 4 } 6 7 9 rfl).2.1,
   (claim10_amended { Result.initial with isReused := true, Connect := 4 } 6 7 9 rfl).2.2.2.1,
   (claim10_amended { Result.initial with isReused := true, Connect := 4 } 6 7 9 rfl).2.2.2.2 (by decide)⟩

end Httpstat
